import Mathlib

/-!
Verification of the command-routing and chat-orchestration core of the
clippy-ai desktop chat client.

The development shallowly embeds:
  * `CommandProcessor` (runCommandOrChat / processInput / showHelp /
    openWebsite / calculate / summarizeClipboard) from the command module;
  * the response-payload handling of `chat` from `src/app/shared/llm.ts`.

External capabilities (the model endpoint, the OS clipboard, the window
opener) are modelled as an explicit `Capabilities` record passed in, and
every capability invocation is recorded in a trace of `CapCall` values, so
that "makes exactly one Model Client call" style properties are statable.
A thrown JavaScript exception that escapes to the caller is modelled as
`Except.error`; a returned string is `Except.ok`.

JavaScript numbers are modelled as `JsNum`: exact rationals (`Frac`, a
reduced numerator/denominator pair) for finite doubles, plus `inf`, `ninf`
and `nan` for the non-finite values that the code's `isFinite` check
rejects.  This models the exact-arithmetic fragment of the source's
evaluator only: IEEE-754 per-operation rounding, overflow to `Infinity`,
the implementation-approximated `**` exponentiation, the sign of zero and
the shortest-round-trip printing of non-terminating decimals are
floating-point behavior outside the embedding, and no theorem below
appeals to them.
-/

deriving instance DecidableEq for Except

namespace Clippy

/-- JavaScript regular-expression class `\s` (also the character set trimmed
by `String.prototype.trim`): ASCII whitespace, the Unicode space separators,
the line separators and the BOM. -/
def isJsWhitespace (c : Char) : Bool :=
  c = ' ' || c = '\t' || c = '\n' || c = '\x0b' || c = '\x0c' || c = '\r' ||
  c = '\u00A0' || c = '\u1680' || ('\u2000' ≤ c && c ≤ '\u200A') ||
  c = '\u2028' || c = '\u2029' || c = '\u202F' || c = '\u205F' ||
  c = '\u3000' || c = '\uFEFF'

/-- JavaScript `String.prototype.trim`: drop leading and trailing
whitespace characters. -/
def jsTrim (s : String) : String :=
  String.mk (((s.toList.dropWhile isJsWhitespace).reverse.dropWhile
    isJsWhitespace).reverse)

/-- JavaScript `String.prototype.toLowerCase`, restricted to ASCII (the
command tokens compared against are all ASCII). -/
def jsToLower (s : String) : String :=
  String.mk (s.toList.map Char.toLower)

/-- JavaScript `String.prototype.startsWith`, as a structural prefix test
on the character lists. -/
def strStartsWith (s p : String) : Bool :=
  p.toList.isPrefixOf s.toList

/-- Accumulator for `splitOnSpace`: chunks separated by single spaces,
empty chunks kept. -/
def splitOnSpaceAux : List Char → List Char → List String
  | [], acc => [String.mk acc.reverse]
  | c :: cs, acc =>
    if c = ' ' then String.mk acc.reverse :: splitOnSpaceAux cs []
    else splitOnSpaceAux cs (c :: acc)

/-- JavaScript `String.prototype.split(' ')`: split on each single space,
keeping empty chunks (`""` splits to `[""]`). -/
def splitOnSpace (cs : List Char) : List String :=
  splitOnSpaceAux cs []

/-- JavaScript `Array.prototype.join(' ')`. -/
def joinSpace : List String → String
  | [] => ""
  | [s] => s
  | s :: rest => s ++ " " ++ joinSpace rest

/-- Message roles, from `LLMRole` in `llm.ts`. -/
inductive LLMRole where
  | system
  | user
  | assistant
  deriving DecidableEq, Repr

/-- A chat message, from `LLMMessage` in `llm.ts`. -/
structure LLMMessage where
  role : LLMRole
  content : String
  deriving DecidableEq, Repr

/-- The chat context handed to `runCommandOrChat`, from `ChatContext` in the
command module. -/
structure ChatContext where
  system : String
  history : List LLMMessage
  deriving DecidableEq, Repr

/-- The result of classifying/executing one input, from `CommandResult` in
the command module.  TypeScript optional fields become `Option`/`Bool`
(an absent boolean is falsy, i.e. `false`). -/
structure CommandResult where
  isCommand : Bool
  response : Option String := none
  error : Option String := none
  shouldContinueToLLM : Bool := false
  clipboardContent : Option String := none
  deriving DecidableEq, Repr

/-- Outcome of the clipboard capability: the `navigator.clipboard` API can
be absent, `readText()` can reject (permission denied), or it resolves with
the clipboard text. -/
inductive ClipboardOutcome where
  | unavailable
  | denied (msg : String)
  | text (s : String)
  deriving DecidableEq, Repr

/-- The external capabilities the command module calls, as deterministic
oracles: the Model Client `chat` (which may throw, modelled by
`Except.error`), the clipboard, and the URL opener (`window.open`, which
may throw). -/
structure Capabilities where
  chatFn : String → List LLMMessage → Except String String
  clipboard : ClipboardOutcome
  openResult : Except String Unit

/-- One recorded capability invocation. -/
inductive CapCall where
  | chatCall (sys : String) (messages : List LLMMessage)
  | clipboardRead
  | openUrl (url : String)
  deriving DecidableEq, Repr

/-- Is this trace entry a Model Client call? -/
def isChat : CapCall → Bool
  | CapCall.chatCall _ _ => true
  | _ => false

/-- The Model Client calls recorded in a trace. -/
def chatCalls (tr : List CapCall) : List CapCall :=
  tr.filter isChat

/-- A trace containing no Model Client call. -/
def chatFree (tr : List CapCall) : Bool :=
  tr.all fun c => !isChat c

/-- JavaScript truthiness of an optional string: defined and non-empty. -/
def optTruthy : Option String → Bool
  | none => false
  | some s => s != ""

/-- JavaScript template-literal interpolation of an optional string: an
undefined value prints as "undefined". -/
def jsTemplate : Option String → String
  | none => "undefined"
  | some s => s

/-- Euclid's algorithm with explicit fuel (the first argument strictly
decreases, so `m + 1` fuel always suffices); fuel keeps the recursion
structural so the kernel can evaluate it. -/
def gcdFuel : Nat → Nat → Nat → Nat
  | 0, m, n => m + n
  | fuel + 1, m, n => if m = 0 then n else gcdFuel fuel (n % m) m

/-- Greatest common divisor via `gcdFuel`. -/
def myGcd (m n : Nat) : Nat :=
  gcdFuel (m + 1) m n

/-- An exact rational: reduced numerator and positive denominator when
built through `qMk`.  Used to model finite JavaScript numbers exactly. -/
structure Frac where
  num : Int
  den : Nat
  deriving DecidableEq, Repr

/-- Build a reduced fraction from a numerator and a non-zero denominator. -/
def qMk (n : Int) (d : Nat) : Frac :=
  let g := myGcd n.natAbs d
  if g = 0 then ⟨0, 1⟩
  else ⟨n / (g : Int), d / g⟩

/-- Exact rational addition. -/
def qAdd (a b : Frac) : Frac :=
  qMk (a.num * (b.den : Int) + b.num * (a.den : Int)) (a.den * b.den)

/-- Exact rational multiplication. -/
def qMul (a b : Frac) : Frac :=
  qMk (a.num * b.num) (a.den * b.den)

/-- Exact rational negation. -/
def qNeg (a : Frac) : Frac :=
  ⟨-a.num, a.den⟩

/-- Exact rational division; only called with a non-zero divisor. -/
def qDiv (a b : Frac) : Frac :=
  if b.num < 0 then qMk (-(a.num * (b.den : Int))) (a.den * b.num.natAbs)
  else qMk (a.num * (b.den : Int)) (a.den * b.num.natAbs)

/-- A JavaScript number as observed by the `/calc` evaluator: a finite
value (modelled as an exact rational) or one of the non-finite values
`Infinity`, `-Infinity`, `NaN` that the code's `isFinite` guard rejects. -/
inductive JsNum where
  | fin (q : Frac)
  | inf
  | ninf
  | nan
  deriving DecidableEq, Repr

/-- Is the number finite (JavaScript `isFinite`)? -/
def JsNum.isFinite : JsNum → Bool
  | JsNum.fin _ => true
  | _ => false

/-- JavaScript unary minus. -/
def jneg : JsNum → JsNum
  | JsNum.fin q => JsNum.fin (qNeg q)
  | JsNum.inf => JsNum.ninf
  | JsNum.ninf => JsNum.inf
  | JsNum.nan => JsNum.nan

/-- JavaScript addition: `NaN` absorbs, `Infinity + -Infinity` is `NaN`. -/
def jadd : JsNum → JsNum → JsNum
  | JsNum.nan, _ => JsNum.nan
  | _, JsNum.nan => JsNum.nan
  | JsNum.fin a, JsNum.fin b => JsNum.fin (qAdd a b)
  | JsNum.inf, JsNum.ninf => JsNum.nan
  | JsNum.ninf, JsNum.inf => JsNum.nan
  | JsNum.inf, _ => JsNum.inf
  | _, JsNum.inf => JsNum.inf
  | JsNum.ninf, _ => JsNum.ninf
  | _, JsNum.ninf => JsNum.ninf

/-- JavaScript subtraction, as addition of the negation. -/
def jsub (a b : JsNum) : JsNum :=
  jadd a (jneg b)

/-- JavaScript multiplication: `NaN` absorbs, `0 * Infinity` is `NaN`,
otherwise signs multiply. -/
def jmul : JsNum → JsNum → JsNum
  | JsNum.nan, _ => JsNum.nan
  | _, JsNum.nan => JsNum.nan
  | JsNum.fin a, JsNum.fin b => JsNum.fin (qMul a b)
  | JsNum.inf, JsNum.inf => JsNum.inf
  | JsNum.inf, JsNum.ninf => JsNum.ninf
  | JsNum.ninf, JsNum.inf => JsNum.ninf
  | JsNum.ninf, JsNum.ninf => JsNum.inf
  | JsNum.inf, JsNum.fin b =>
      if 0 < b.num then JsNum.inf
      else if b.num < 0 then JsNum.ninf else JsNum.nan
  | JsNum.fin a, JsNum.inf =>
      if 0 < a.num then JsNum.inf
      else if a.num < 0 then JsNum.ninf else JsNum.nan
  | JsNum.ninf, JsNum.fin b =>
      if 0 < b.num then JsNum.ninf
      else if b.num < 0 then JsNum.inf else JsNum.nan
  | JsNum.fin a, JsNum.ninf =>
      if 0 < a.num then JsNum.ninf
      else if a.num < 0 then JsNum.inf else JsNum.nan

/-- JavaScript division: division of a finite value by zero yields a signed
infinity (`0 / 0` is `NaN`), a finite value over an infinity is `0`, an
infinity over a finite value keeps its (possibly flipped) sign, an infinity
over an infinity is `NaN`.  The sign of zero is abstracted as positive. -/
def jdiv : JsNum → JsNum → JsNum
  | JsNum.nan, _ => JsNum.nan
  | _, JsNum.nan => JsNum.nan
  | JsNum.fin a, JsNum.fin b =>
      if b.num = 0 then
        if 0 < a.num then JsNum.inf
        else if a.num < 0 then JsNum.ninf else JsNum.nan
      else JsNum.fin (qDiv a b)
  | JsNum.fin _, JsNum.inf => JsNum.fin ⟨0, 1⟩
  | JsNum.fin _, JsNum.ninf => JsNum.fin ⟨0, 1⟩
  | JsNum.inf, JsNum.fin b => if b.num < 0 then JsNum.ninf else JsNum.inf
  | JsNum.ninf, JsNum.fin b => if b.num < 0 then JsNum.inf else JsNum.ninf
  | _, _ => JsNum.nan

/-- Tokens of the whitelisted arithmetic fragment. -/
inductive Tok where
  | num (q : Frac)
  | plus
  | minus
  | star
  | slash
  | lparen
  | rparen
  deriving DecidableEq, Repr

/-- Decimal digits to a natural number. -/
def digitsToNat (ds : List Char) : Nat :=
  ds.foldl (fun n c => n * 10 + (c.toNat - 48)) 0

/-- Lex one JavaScript numeric literal (`12`, `1.5`, `.5`, `5.`); fails on a
lone dot.  Strict mode (the source wraps the expression in
`"use strict"`) forbids legacy-octal and non-octal-decimal integer
literals, i.e. any literal whose integer part is `0` followed by another
digit (`012`, `08`), so those are lexer errors.  Always consumes at least
one character when it succeeds. -/
def lexNumber (cs : List Char) : Option (Frac × List Char) :=
  let intPart := cs.span Char.isDigit
  match intPart.1 with
  | '0' :: _ :: _ => none
  | _ =>
  match intPart.2 with
  | '.' :: rest2 =>
      let fracPart := rest2.span Char.isDigit
      if intPart.1.isEmpty && fracPart.1.isEmpty then none
      else
        some ((qMk
          ((digitsToNat intPart.1 * 10 ^ fracPart.1.length +
            digitsToNat fracPart.1 : Nat) : Int)
          (10 ^ fracPart.1.length)),
          fracPart.2)
  | _ =>
      if intPart.1.isEmpty then none
      else some (qMk ((digitsToNat intPart.1 : Nat) : Int) 1, intPart.2)

/-- Tokenize a whitelisted expression.  Mirrors the JavaScript lexer on the
whitelisted characters: whitespace is skipped, adjacent `++` or `--` lex as
increment/decrement operators, which are always a syntax error in this
expression fragment, so they map to `none`.  Fuel decreases once per step;
each step consumes at least one character, so `length + 1` fuel suffices. -/
def tokenize : Nat → List Char → Option (List Tok)
  | 0, _ => none
  | _, [] => some []
  | fuel + 1, c :: cs =>
    if isJsWhitespace c then tokenize fuel cs
    else if c = '+' then
      match cs with
      | '+' :: _ => none
      | _ => (tokenize fuel cs).map (fun ts => Tok.plus :: ts)
    else if c = '-' then
      match cs with
      | '-' :: _ => none
      | _ => (tokenize fuel cs).map (fun ts => Tok.minus :: ts)
    else if c = '*' then (tokenize fuel cs).map (fun ts => Tok.star :: ts)
    else if c = '/' then (tokenize fuel cs).map (fun ts => Tok.slash :: ts)
    else if c = '(' then (tokenize fuel cs).map (fun ts => Tok.lparen :: ts)
    else if c = ')' then (tokenize fuel cs).map (fun ts => Tok.rparen :: ts)
    else if c.isDigit || c = '.' then
      match lexNumber (c :: cs) with
      | some (q, rest) => (tokenize fuel rest).map (fun ts => Tok.num q :: ts)
      | none => none
    else none

mutual

/-- `expr := term (('+' | '-') term)*`, left associative. -/
def parseExpr : Nat → List Tok → Option (JsNum × List Tok)
  | 0, _ => none
  | fuel + 1, ts =>
    match parseTerm fuel ts with
    | none => none
    | some (v, rest) => parseExprLoop fuel v rest

/-- Fold the remaining `('+' | '-') term` pairs onto the accumulator. -/
def parseExprLoop : Nat → JsNum → List Tok → Option (JsNum × List Tok)
  | 0, _, _ => none
  | fuel + 1, acc, ts =>
    match ts with
    | Tok.plus :: rest =>
      match parseTerm fuel rest with
      | none => none
      | some (v, rest2) => parseExprLoop fuel (jadd acc v) rest2
    | Tok.minus :: rest =>
      match parseTerm fuel rest with
      | none => none
      | some (v, rest2) => parseExprLoop fuel (jsub acc v) rest2
    | _ => some (acc, ts)

/-- `term := unary (('*' | '/') unary)*`, left associative, binds tighter
than addition. -/
def parseTerm : Nat → List Tok → Option (JsNum × List Tok)
  | 0, _ => none
  | fuel + 1, ts =>
    match parseUnary fuel ts with
    | none => none
    | some (v, rest) => parseTermLoop fuel v rest

/-- Fold the remaining `('*' | '/') unary` pairs onto the accumulator. -/
def parseTermLoop : Nat → JsNum → List Tok → Option (JsNum × List Tok)
  | 0, _, _ => none
  | fuel + 1, acc, ts =>
    match ts with
    | Tok.star :: rest =>
      match parseUnary fuel rest with
      | none => none
      | some (v, rest2) => parseTermLoop fuel (jmul acc v) rest2
    | Tok.slash :: rest =>
      match parseUnary fuel rest with
      | none => none
      | some (v, rest2) => parseTermLoop fuel (jdiv acc v) rest2
    | _ => some (acc, ts)

/-- `unary := ('+' | '-') unary | primary`; unary plus is the identity on a
number. -/
def parseUnary : Nat → List Tok → Option (JsNum × List Tok)
  | 0, _ => none
  | fuel + 1, ts =>
    match ts with
    | Tok.plus :: rest => parseUnary fuel rest
    | Tok.minus :: rest =>
      match parseUnary fuel rest with
      | none => none
      | some (v, rest2) => some (jneg v, rest2)
    | _ => parsePrimary fuel ts

/-- `primary := number | '(' expr ')'`. -/
def parsePrimary : Nat → List Tok → Option (JsNum × List Tok)
  | 0, _ => none
  | fuel + 1, ts =>
    match ts with
    | Tok.num q :: rest => some (JsNum.fin q, rest)
    | Tok.lparen :: rest =>
      match parseExpr fuel rest with
      | some (v, Tok.rparen :: rest2) => some (v, rest2)
      | _ => none
    | _ => none

end

/-- Evaluate a whitelisted expression the way the source's
`Function('"use strict"; return (<expression>)')()` does on the
exact-arithmetic `+ - * / ( )` decimal fragment: `none` models a syntax
error (a thrown exception, including strict mode's leading-zero literal
rejection), `some v` the produced number.  The source computes on IEEE-754
binary64 doubles; their per-operation rounding, overflow to `Infinity`,
and the implementation-approximated `**` exponentiation are floating-point
behavior outside this exact model, and no claim settled against this
definition depends on them. -/
def evalArith (s : String) : Option JsNum :=
  match tokenize (s.toList.length + 1) s.toList with
  | none => none
  | some ts =>
    match parseExpr (8 * ts.length + 16) ts with
    | some (v, []) => some v
    | _ => none

/-- Multiplicity of the prime `p` in `n`, with fuel (each division shrinks
`n`, so `n` fuel suffices). -/
def countFactor : Nat → Nat → Nat → Nat
  | 0, _, _ => 0
  | fuel + 1, p, n =>
    if 2 ≤ p ∧ n % p = 0 ∧ n ≠ 0 then countFactor fuel p (n / p) + 1
    else 0

/-- Format the finite result the way JavaScript number-to-string printing
does on the exactly-representable fragment: integers without a decimal
part, rationals with a terminating decimal expansion (denominator of the
form `2^a * 5^b`) as that expansion (`1/2` prints `0.5`, `1/20` prints
`0.05`).  A reduced terminating denominator never produces a trailing
zero, matching the shortest form the source prints.  Non-terminating
expansions would print the rounded double's shortest decimal in the
source; they fall back to an exact `num/den` rendering here and are
outside every claim. -/
def fmtNum (q : Frac) : String :=
  if q.den = 1 then toString q.num
  else
    let d2 := countFactor q.den 2 q.den
    let d5 := countFactor q.den 5 q.den
    if q.den = 2 ^ d2 * 5 ^ d5 then
      let k := max d2 d5
      let digits := q.num.natAbs * 10 ^ k / q.den
      let intPart := digits / 10 ^ k
      let fracStr := toString (digits % 10 ^ k)
      (if q.num < 0 then "-" else "") ++ toString intPart ++ "." ++
        String.mk (List.replicate (k - fracStr.length) '0') ++ fracStr
    else toString q.num ++ "/" ++ toString q.den

/-- The character class of the source's safety regex
`/^[0-9+\-*\/().\s]+$/`: digits, the four operators, parentheses, dot, and
every `\s` whitespace character. -/
def calcCharOk (c : Char) : Bool :=
  c.isDigit || c = '+' || c = '-' || c = '*' || c = '/' ||
  c = '(' || c = ')' || c = '.' || isJsWhitespace c

/-- The source's whitelist test: the regex demands at least one character,
all drawn from the class. -/
def expressionOk (e : String) : Bool :=
  !e.toList.isEmpty && e.toList.all calcCharOk

/-- `CommandProcessor.calculate`.  The source's `args.length === 0` check
becomes a match on the argument list.  The source's internal throws
(whitelist violation, evaluation syntax error, non-finite or non-number
result) are all caught by its `try`/`catch` and folded into the single
`Invalid math expression: "<expression>"` error, which the embedding
returns directly from each failing branch. -/
def calculate (args : List String) : CommandResult :=
  match args with
  | [] =>
    { isCommand := true,
      error := some "Please provide a math expression. Example: /calc 2 + 2" }
  | _ :: _ =>
    let expression := joinSpace args
    if expressionOk expression = false then
      { isCommand := true,
        error := some ("Invalid math expression: \"" ++ expression ++ "\"") }
    else
      match evalArith expression with
      | some (JsNum.fin q) =>
        { isCommand := true,
          response := some ("🧮 **" ++ expression ++ "** = **" ++
            fmtNum q ++ "**") }
      | _ =>
        { isCommand := true,
          error := some ("Invalid math expression: \"" ++ expression ++ "\"") }

/-- `CommandProcessor.showHelp`: a static command reference. -/
def showHelp : CommandResult :=
  { isCommand := true,
    response := some ("**🤖 Clippy AI Commands:**\n\n🌐 `/open <url>` - Open a website\n   Example: `/open https://google.com`\n\n📋 `/clipboard` - Summarize clipboard content\n   Example: `/clipboard`\n\n🧮 `/calc <expression>` - Calculate math\n   Example: `/calc 2 + 2 * 3`\n\n❓ `/help` - Show this help\n\n💬 **Just type normally for AI chat!**") }

/-- The URL normalization step of `CommandProcessor.openWebsite`: prepend
`https://` exactly when the joined argument text starts with neither
`http://` nor `https://`. -/
def normalizeUrl (url0 : String) : String :=
  if !strStartsWith url0 "http://" && !strStartsWith url0 "https://" then
    "https://" ++ url0
  else url0

/-- `CommandProcessor.openWebsite`: missing arguments are rejected, the
joined arguments are normalized, and `window.open` is invoked once, its
throw caught into an error string. -/
def openWebsite (caps : Capabilities) (args : List String) :
    CommandResult × List CapCall :=
  match args with
  | [] =>
    ({ isCommand := true,
       error := some "Please provide a URL. Example: /open https://google.com" },
     [])
  | _ :: _ =>
    let url := normalizeUrl (joinSpace args)
    match caps.openResult with
    | Except.ok _ =>
        ({ isCommand := true, response := some ("✅ Opened: " ++ url) },
         [CapCall.openUrl url])
    | Except.error e =>
        ({ isCommand := true, error := some ("Failed to open URL: " ++ e) },
         [CapCall.openUrl url])

/-- `CommandProcessor.summarizeClipboard`: an absent clipboard API or a
rejected read is reported as an error; empty or whitespace-only text is the
"empty" error; otherwise the acknowledgement is produced together with
`shouldContinueToLLM` and the carried clipboard content. -/
def summarizeClipboard (caps : Capabilities) :
    CommandResult × List CapCall :=
  match caps.clipboard with
  | ClipboardOutcome.unavailable =>
      ({ isCommand := true,
         error := some "Clipboard access not available. Try copying text and asking me to summarize it directly." },
       [])
  | ClipboardOutcome.denied _ =>
      ({ isCommand := true,
         error := some "Clipboard access denied. Try copying text and asking me to summarize it directly." },
       [CapCall.clipboardRead])
  | ClipboardOutcome.text s =>
      if s = "" ∨ jsTrim s = "" then
        ({ isCommand := true,
           error := some "Clipboard is empty or contains no text" },
         [CapCall.clipboardRead])
      else
        ({ isCommand := true,
           response := some "📋 **Summarizing clipboard content...**",
           shouldContinueToLLM := true,
           clipboardContent := some s },
         [CapCall.clipboardRead])

/-- `CommandProcessor.processInput`: trim, classify by the leading sigil,
split the command token (lower-cased) from the arguments, and dispatch.
The source's outer `try`/`catch` is unreachable in the embedding because
every helper returns a `CommandResult` rather than throwing. -/
def processInput (caps : Capabilities) (input : String) :
    CommandResult × List CapCall :=
  let trimmed := jsTrim input
  if strStartsWith trimmed "/" = false then ({ isCommand := false }, [])
  else
    let parts := splitOnSpace trimmed.toList.tail
    let command := jsToLower (parts.headD "")
    let args := parts.tail
    if command = "help" then (showHelp, [])
    else if command = "open" then openWebsite caps args
    else if command = "calc" ∨ command = "calculate" then (calculate args, [])
    else if command = "clipboard" then summarizeClipboard caps
    else
      ({ isCommand := true,
         error := some ("Unknown command: /" ++ command ++
           ". Type /help for available commands.") },
       [])

/-- `CommandProcessor.runCommandOrChat`: non-commands go to the Model
Client with the history plus the new user turn; a command error is
returned with the `❌` marker; the clipboard acknowledgement continues to
a one-shot summarization call; otherwise the command response (or a generic
fallback) is returned.  The Model Client calls are not guarded, so their
failure propagates (`Except.error`) to the caller. -/
def runCommandOrChat (caps : Capabilities) (input : String)
    (ctx : ChatContext) : Except String String × List CapCall :=
  let cr := (processInput caps input).1
  let tr := (processInput caps input).2
  if cr.isCommand = false then
    let msgs := ctx.history ++ [{ role := LLMRole.user, content := input }]
    match caps.chatFn ctx.system msgs with
    | Except.ok t => (Except.ok t, tr ++ [CapCall.chatCall ctx.system msgs])
    | Except.error e =>
        (Except.error e, tr ++ [CapCall.chatCall ctx.system msgs])
  else if optTruthy cr.error then
    (Except.ok ("❌ " ++ cr.error.getD ""), tr)
  else if cr.shouldContinueToLLM && optTruthy cr.clipboardContent then
    let prompt := "Please provide a concise summary of this clipboard content:\n\n" ++
      cr.clipboardContent.getD ""
    match caps.chatFn ctx.system [{ role := LLMRole.user, content := prompt }] with
    | Except.ok s =>
        (Except.ok (jsTemplate cr.response ++ "\n\n" ++ s),
         tr ++ [CapCall.chatCall ctx.system
           [{ role := LLMRole.user, content := prompt }]])
    | Except.error e =>
        (Except.error e,
         tr ++ [CapCall.chatCall ctx.system
           [{ role := LLMRole.user, content := prompt }]])
  else
    (Except.ok (if optTruthy cr.response then cr.response.getD ""
      else "Command executed successfully."), tr)

/-- The shape of `data?.choices?.[0]?.message?.content` in a success
response payload of the generation endpoint: absent, present but not a
string, or a string. -/
inductive ContentField where
  | missing
  | nonString
  | str (s : String)
  deriving DecidableEq, Repr

/-- The `?? ""` coalescing in `chat` (`llm.ts`): an absent content field
becomes the empty string; a non-string JSON value stays non-string
(`none`). -/
def coalesceContent : ContentField → Option String
  | ContentField.missing => some ""
  | ContentField.nonString => none
  | ContentField.str s => some s

/-- The success-payload handling of `chat` in `llm.ts` (lines 109-116):
reject a non-string or whitespace-only content with the
`EmptyResponseError` (`"Empty response from model."`), otherwise return
the trimmed text. -/
def extractChatText (c : ContentField) : Except String String :=
  match coalesceContent c with
  | none => Except.error "Empty response from model."
  | some s =>
      if jsTrim s = "" then Except.error "Empty response from model."
      else Except.ok (jsTrim s)

/-- A fixed capability environment whose Model Client always answers
`"the reply"`, with a non-empty clipboard and a succeeding URL opener;
used by concrete witnesses. -/
def caps0 : Capabilities :=
  { chatFn := fun _ _ => Except.ok "the reply",
    clipboard := ClipboardOutcome.text "note",
    openResult := Except.ok () }

/-- A capability environment whose Model Client always fails, modelling a
network error; used to exhibit exception propagation. -/
def capsFail : Capabilities :=
  { chatFn := fun _ _ => Except.error "network down",
    clipboard := ClipboardOutcome.text "note",
    openResult := Except.ok () }

/-- A capability environment whose clipboard holds whitespace only. -/
def capsEmptyClip : Capabilities :=
  { chatFn := fun _ _ => Except.ok "the reply",
    clipboard := ClipboardOutcome.text "   ",
    openResult := Except.ok () }

/-- A capability environment whose URL opener throws. -/
def capsOpenFail : Capabilities :=
  { chatFn := fun _ _ => Except.ok "the reply",
    clipboard := ClipboardOutcome.text "note",
    openResult := Except.error "boom" }

/-- A minimal chat context for concrete witnesses. -/
def ctx0 : ChatContext :=
  { system := "You are Clippy AI, a helpful desktop assistant.", history := [] }

/-- The character whitelist exactly as the claim words it: digits, the four
operators, parentheses, dot, and space as the only whitespace character.
This follows the spec text `[0-9+\-*\/(). ]`, to be compared with the
source's `calcCharOk` (whose class also admits every `\s` character). -/
def specCalcWhitelist (c : Char) : Bool :=
  c.isDigit || c = '+' || c = '-' || c = '*' || c = '/' ||
  c = '(' || c = ')' || c = '.' || c = ' '

/-- The substring relation used for the spec's "contains" phrasing. -/
def containsStr (s pat : String) : Prop :=
  ∃ pre post, s = pre ++ pat ++ post

theorem chatFree_openWebsite (caps : Capabilities) (args : List String) :
    chatFree (openWebsite caps args).2 = true := by
  simp only [openWebsite]
  split
  · rfl
  · split <;> rfl

theorem chatFree_summarizeClipboard (caps : Capabilities) :
    chatFree (summarizeClipboard caps).2 = true := by
  simp only [summarizeClipboard]
  split
  · rfl
  · rfl
  · split <;> rfl

/-- Classifying and executing a command never calls the Model Client: the
trace produced by `processInput` is chat-free. -/
theorem chatFree_processInput (caps : Capabilities) (input : String) :
    chatFree (processInput caps input).2 = true := by
  simp only [processInput]
  split
  · rfl
  · split
    · rfl
    · split
      · exact chatFree_openWebsite caps _
      · split
        · rfl
        · split
          · exact chatFree_summarizeClipboard caps
          · rfl

theorem optTruthy_none : optTruthy none = false := rfl

theorem optTruthy_some (s : String) : optTruthy (some s) = (s != "") := rfl

theorem jsTrim_empty : jsTrim "" = "" := rfl

/-- When classification yields a command with a (truthy) error,
`runCommandOrChat` returns the error prefixed with the failure marker and
performs nothing beyond what classification already did. -/
theorem run_error_case (caps : Capabilities) (input : String)
    (ctx : ChatContext) (e : String)
    (hcmd : (processInput caps input).1.isCommand = true)
    (herr : (processInput caps input).1.error = some e)
    (hne : e ≠ "") :
    runCommandOrChat caps input ctx =
      (Except.ok ("❌ " ++ e), (processInput caps input).2) := by
  simp only [runCommandOrChat]
  split
  · next hfalse =>
      rw [hcmd] at hfalse
      exact absurd hfalse (by decide)
  · split
    · rw [herr]
      rfl
    · next hfalse =>
        rw [herr, optTruthy_some] at hfalse
        exact absurd (bne_iff_ne.mpr hne) hfalse

/-- When classification yields the clipboard acknowledgement with carried
content, `runCommandOrChat` issues the one-shot summarization call and
joins the acknowledgement and the summary with a blank line. -/
theorem run_continue_case (caps : Capabilities) (input : String)
    (ctx : ChatContext) (ack s t : String)
    (hcr : (processInput caps input).1 =
      { isCommand := true, response := some ack,
        shouldContinueToLLM := true, clipboardContent := some s })
    (hsne : s ≠ "")
    (hchat : caps.chatFn ctx.system
      [{ role := LLMRole.user,
         content := "Please provide a concise summary of this clipboard content:\n\n" ++ s }] =
      Except.ok t) :
    runCommandOrChat caps input ctx =
      (Except.ok (ack ++ "\n\n" ++ t),
       (processInput caps input).2 ++
         [CapCall.chatCall ctx.system
           [{ role := LLMRole.user,
              content := "Please provide a concise summary of this clipboard content:\n\n" ++ s }]]) := by
  simp only [runCommandOrChat, hcr]
  split
  · next hfalse => exact absurd hfalse (by decide)
  · split
    · next htrue => exact absurd htrue (by decide)
    · split
      · simp only [Option.getD_some]
        rw [hchat]
        rfl
      · next hfalse =>
          rw [Bool.true_and, optTruthy_some] at hfalse
          exact absurd (bne_iff_ne.mpr hsne) hfalse

/-- Claim C9: an input whose trimmed form is exactly the sigil `/` is
classified as a command with the empty command token, so `runCommandOrChat`
returns the unknown-command error naming the empty command and makes no
Model Client call. -/
theorem claim9_bare_sigil (caps : Capabilities) (ctx : ChatContext) :
    (runCommandOrChat caps "/" ctx).1 =
      Except.ok "❌ Unknown command: /. Type /help for available commands." ∧
    (runCommandOrChat caps "/" ctx).2 = [] :=
  ⟨rfl, rfl⟩

/-- Claim C2, counterexample: the claim says `runCommandOrChat` never
throws to its caller, even on Model Client failure.  In the source the
`chat` calls inside `runCommandOrChat` are not guarded by any
`try`/`catch`, so a failing Model Client call propagates as an exception
(modelled as `Except.error`): with a chat oracle that fails with
"network down", the plain chat input "hello" makes `runCommandOrChat`
throw rather than return an error-shaped text. -/
theorem claim2_counterexample :
    (runCommandOrChat capsFail "hello" ctx0).1 =
      Except.error "network down" :=
  rfl

/-- Claim C2, amended: for every input, chat context and every outcome of
the clipboard and URL-open capabilities, `runCommandOrChat` returns a text
value (never throws) provided every Model Client call it makes succeeds;
command-level failures are reported as error-shaped return strings, but a
Model Client failure propagates to the caller as an exception. -/
theorem claim2_amended_no_throw (caps : Capabilities) (input : String)
    (ctx : ChatContext)
    (hok : ∀ s m, ∃ t, caps.chatFn s m = Except.ok t) :
    ∃ t, (runCommandOrChat caps input ctx).1 = Except.ok t := by
  simp only [runCommandOrChat]
  split
  · obtain ⟨t, ht⟩ :=
      hok ctx.system (ctx.history ++ [{ role := LLMRole.user, content := input }])
    rw [ht]
    exact ⟨t, rfl⟩
  · split
    · exact ⟨_, rfl⟩
    · split
      · obtain ⟨t, ht⟩ :=
          hok ctx.system
            [{ role := LLMRole.user,
               content := "Please provide a concise summary of this clipboard content:\n\n" ++
                 (processInput caps input).1.clipboardContent.getD "" }]
        rw [ht]
        exact ⟨_, rfl⟩
      · exact ⟨_, rfl⟩

/-- Witness for the amended claim C2 at a concrete environment and input. -/
theorem claim2_amended_no_throw_witness :
    ∃ t, (runCommandOrChat caps0 "/clipboard" ctx0).1 = Except.ok t :=
  claim2_amended_no_throw caps0 "/clipboard" ctx0
    (fun _ _ => ⟨"the reply", rfl⟩)

/-- Claim C8: for every response payload, the Model Client's `chat` fails
with the `EmptyResponseError` ("Empty response from model.") when the first
generated message's text content is missing, not a string, or
whitespace-only; a successful return is never empty and is the generated
text with surrounding whitespace trimmed. -/
theorem claim8_empty_response :
    extractChatText ContentField.missing =
      Except.error "Empty response from model." ∧
    extractChatText ContentField.nonString =
      Except.error "Empty response from model." ∧
    (∀ s, jsTrim s = "" →
      extractChatText (ContentField.str s) =
        Except.error "Empty response from model.") ∧
    (∀ s t, extractChatText (ContentField.str s) = Except.ok t →
      t = jsTrim s ∧ t ≠ "") := by
  refine ⟨rfl, rfl, ?_, ?_⟩
  · intro s hs
    simp [extractChatText, coalesceContent, hs]
  · intro s t h
    by_cases hs : jsTrim s = ""
    · simp [extractChatText, coalesceContent, hs] at h
    · simp only [extractChatText, coalesceContent, if_neg hs] at h
      injection h with h2
      subst h2
      exact ⟨rfl, hs⟩

/-- Witness for claim C8 at concrete payloads. -/
theorem claim8_empty_response_witness :
    extractChatText (ContentField.str " ") =
      Except.error "Empty response from model." ∧
    ("hi" = jsTrim "  hi  " ∧ "hi" ≠ "") :=
  ⟨claim8_empty_response.2.2.1 " " (by decide),
   claim8_empty_response.2.2.2 "  hi  " "hi" (by decide)⟩

/-- Claim C10: `calculate` is total — it always returns a `CommandResult`
marked as a command and never throws; empty arguments yield the
missing-expression error, and for non-empty arguments every validation or
evaluation failure is mapped to the single error string
`Invalid math expression: "<expression>"` (throws inside the source's
`try` block are caught there and folded into that string). -/
theorem claim10_calculate_total (args : List String) :
    (calculate args).isCommand = true ∧
    (args = [] →
      calculate args =
        { isCommand := true,
          error := some "Please provide a math expression. Example: /calc 2 + 2" }) ∧
    (args ≠ [] →
      (calculate args).error = none ∨
      (calculate args).error =
        some ("Invalid math expression: \"" ++ joinSpace args ++ "\"")) := by
  refine ⟨?_, ?_, ?_⟩
  · cases args with
    | nil => rfl
    | cons a l =>
      simp only [calculate]
      split
      · rfl
      · split <;> rfl
  · intro h
    subst h
    rfl
  · intro h
    cases args with
    | nil => exact absurd rfl h
    | cons a l =>
      simp only [calculate]
      split
      · exact Or.inr rfl
      · split
        · exact Or.inl rfl
        · exact Or.inr rfl

/-- Witness for claim C10 at concrete argument lists. -/
theorem claim10_calculate_total_witness :
    ((calculate ["+"]).error = none ∨
      (calculate ["+"]).error =
        some ("Invalid math expression: \"" ++ joinSpace ["+"] ++ "\"")) ∧
    calculate [] =
      { isCommand := true,
        error := some "Please provide a math expression. Example: /calc 2 + 2" } :=
  ⟨(claim10_calculate_total ["+"]).2.2 (by decide),
   (claim10_calculate_total []).2.1 rfl⟩

/-- Claim C1: for every input whose trimmed form does not begin with the
sigil `/`, `runCommandOrChat` makes exactly one Model Client call — with
the context's system prompt and the history with the user turn appended as
the last element — invokes no other capability, and returns the call's
output text verbatim when the call succeeds. -/
theorem claim1_chat_forwarding (caps : Capabilities) (input : String)
    (ctx : ChatContext) (h : strStartsWith (jsTrim input) "/" = false) :
    (runCommandOrChat caps input ctx).2 =
      [CapCall.chatCall ctx.system
        (ctx.history ++ [{ role := LLMRole.user, content := input }])] ∧
    ∀ t, caps.chatFn ctx.system
        (ctx.history ++ [{ role := LLMRole.user, content := input }]) =
          Except.ok t →
      (runCommandOrChat caps input ctx).1 = Except.ok t := by
  have hp : processInput caps input = ({ isCommand := false }, []) := by
    simp only [processInput, h]
    rfl
  constructor
  · simp only [runCommandOrChat, hp]
    cases caps.chatFn ctx.system
      (ctx.history ++ [{ role := LLMRole.user, content := input }]) <;> rfl
  · intro t ht
    simp only [runCommandOrChat, hp, ht]
    rfl

/-- Witness for claim C1 at a concrete plain-chat input. -/
theorem claim1_chat_forwarding_witness :
    (runCommandOrChat caps0 "hello" ctx0).2 =
      [CapCall.chatCall ctx0.system
        (ctx0.history ++ [{ role := LLMRole.user, content := "hello" }])] ∧
    (runCommandOrChat caps0 "hello" ctx0).1 = Except.ok "the reply" :=
  ⟨(claim1_chat_forwarding caps0 "hello" ctx0 (by decide)).1,
   (claim1_chat_forwarding caps0 "hello" ctx0 (by decide)).2 "the reply" rfl⟩

/-- Claim C4, counterexample: the claim's whitelist admits only
`[0-9+\-*\/(). ]` with space as the only whitespace, but the source regex
class is `[0-9+\-*\/().\s]`, whose `\s` also matches a tab.  The joined
expression `"2\t+3"` contains a tab — a character outside the claimed
whitelist — yet `calculate` does not reject it: it evaluates it to `5`. -/
theorem claim4_counterexample :
    ('\t' ∈ "2\t+3".toList) ∧
    specCalcWhitelist '\t' = false ∧
    calculate ["2\t+3"] =
      { isCommand := true, response := some "🧮 **2\t+3** = **5**" } := by
  refine ⟨?_, rfl, ?_⟩ <;> decide

/-- Claim C4, amended: the effective whitelist is the claim's characters
plus every whitespace character (the source regex uses `\s`, not just
space).  Any joined expression containing a character outside that class —
a character that is neither in `[0-9+\-*\/(). ]` nor whitespace — is
rejected with the invalid-expression error before any evaluation takes
place; in particular `/calc 2; DROP TABLE` is rejected and never
evaluated. -/
theorem claim4_amended_whitelist :
    (∀ args c, c ∈ (joinSpace args).toList → calcCharOk c = false →
      calculate args =
        { isCommand := true,
          error := some ("Invalid math expression: \"" ++
            joinSpace args ++ "\"") }) ∧
    calculate ["2;", "DROP", "TABLE"] =
      { isCommand := true,
        error := some "Invalid math expression: \"2; DROP TABLE\"" } := by
  constructor
  · intro args c hc hbad
    cases args with
    | nil => exact absurd hc (List.not_mem_nil c)
    | cons a l =>
      have hall : (joinSpace (a :: l)).toList.all calcCharOk = false := by
        rw [List.all_eq_false]
        exact ⟨c, hc, by simp [hbad]⟩
      have hok : expressionOk (joinSpace (a :: l)) = false := by
        unfold expressionOk
        rw [hall, Bool.and_false]
      simp only [calculate, hok]
      rfl
  · decide

/-- Witness for the amended claim C4 at the injection attempt. -/
theorem claim4_amended_whitelist_witness :
    calculate ["2;", "DROP", "TABLE"] =
      { isCommand := true,
        error := some ("Invalid math expression: \"" ++
          joinSpace ["2;", "DROP", "TABLE"] ++ "\"") } :=
  claim4_amended_whitelist.1 ["2;", "DROP", "TABLE"] ';' (by decide) (by decide)

/-- Claim C7: every input classified as a command whose execution produces
an error is answered locally — `runCommandOrChat` makes no Model Client
call and returns the error text prefixed with the `❌` failure marker.  In
particular the unknown command `/frobnicate` yields an error containing
"Unknown command" and the literal command name, of the form
`Unknown command: /<command>. Type /help for available commands.`
(the source capitalizes the first letter), with no Model Client call. -/
theorem claim7_command_errors (caps : Capabilities) (input : String)
    (ctx : ChatContext) (e : String)
    (hcmd : (processInput caps input).1.isCommand = true)
    (herr : (processInput caps input).1.error = some e)
    (hne : e ≠ "") :
    (runCommandOrChat caps input ctx).1 = Except.ok ("❌ " ++ e) ∧
    chatFree (runCommandOrChat caps input ctx).2 = true ∧
    (runCommandOrChat caps "/frobnicate" ctx).1 =
      Except.ok "❌ Unknown command: /frobnicate. Type /help for available commands." ∧
    containsStr "❌ Unknown command: /frobnicate. Type /help for available commands."
      "Unknown command" ∧
    containsStr "❌ Unknown command: /frobnicate. Type /help for available commands."
      "frobnicate" ∧
    chatFree (runCommandOrChat caps "/frobnicate" ctx).2 = true := by
  refine ⟨?_, ?_, rfl,
    ⟨"❌ ", ": /frobnicate. Type /help for available commands.", by decide⟩,
    ⟨"❌ Unknown command: /", ". Type /help for available commands.", by decide⟩,
    rfl⟩
  · rw [run_error_case caps input ctx e hcmd herr hne]
  · rw [run_error_case caps input ctx e hcmd herr hne]
    exact chatFree_processInput caps input

/-- Witness for claim C7 at the unknown command `/frobnicate`. -/
theorem claim7_command_errors_witness :
    (runCommandOrChat caps0 "/frobnicate" ctx0).1 =
      Except.ok ("❌ " ++
        "Unknown command: /frobnicate. Type /help for available commands.") ∧
    chatFree (runCommandOrChat caps0 "/frobnicate" ctx0).2 = true :=
  ⟨(claim7_command_errors caps0 "/frobnicate" ctx0
      "Unknown command: /frobnicate. Type /help for available commands."
      (by decide) (by decide) (by decide)).1,
   (claim7_command_errors caps0 "/frobnicate" ctx0
      "Unknown command: /frobnicate. Type /help for available commands."
      (by decide) (by decide) (by decide)).2.1⟩

/-- Claim C3: for the `/clipboard` command, a clipboard read yielding empty
or whitespace-only text produces an error containing "empty" with no Model
Client call; a read yielding non-empty text `s` produces exactly one Model
Client call whose message list is the single user message consisting of the
summarization preamble followed by `s` (no history), and the returned text
is the acknowledgement, a blank line, then the model's summary. -/
theorem claim3_clipboard :
    (∀ caps ctx s, caps.clipboard = ClipboardOutcome.text s → jsTrim s = "" →
      (runCommandOrChat caps "/clipboard" ctx).1 =
        Except.ok "❌ Clipboard is empty or contains no text" ∧
      containsStr "❌ Clipboard is empty or contains no text" "empty" ∧
      chatCalls (runCommandOrChat caps "/clipboard" ctx).2 = []) ∧
    (∀ caps ctx s t, caps.clipboard = ClipboardOutcome.text s →
      jsTrim s ≠ "" →
      caps.chatFn ctx.system
        [{ role := LLMRole.user,
           content := "Please provide a concise summary of this clipboard content:\n\n" ++ s }] =
        Except.ok t →
      (runCommandOrChat caps "/clipboard" ctx).1 =
        Except.ok ("📋 **Summarizing clipboard content...**" ++ "\n\n" ++ t) ∧
      chatCalls (runCommandOrChat caps "/clipboard" ctx).2 =
        [CapCall.chatCall ctx.system
          [{ role := LLMRole.user,
             content := "Please provide a concise summary of this clipboard content:\n\n" ++ s }]]) := by
  constructor
  · intro caps ctx s hclip hs
    have hpi : processInput caps "/clipboard" = summarizeClipboard caps := rfl
    have hsum : summarizeClipboard caps =
        ({ isCommand := true,
           error := some "Clipboard is empty or contains no text" },
         [CapCall.clipboardRead]) := by
      simp only [summarizeClipboard, hclip]
      rw [if_pos (Or.inr hs)]
    have hcmd : (processInput caps "/clipboard").1.isCommand = true := by
      rw [hpi, hsum]
    have herr : (processInput caps "/clipboard").1.error =
        some "Clipboard is empty or contains no text" := by
      rw [hpi, hsum]
    refine ⟨?_, ⟨"❌ Clipboard is ", " or contains no text", by decide⟩, ?_⟩
    · rw [run_error_case caps "/clipboard" ctx _ hcmd herr (by decide)]
      rfl
    · rw [run_error_case caps "/clipboard" ctx _ hcmd herr (by decide),
        hpi, hsum]
      rfl
  · intro caps ctx s t hclip hs hchat
    have hpi : processInput caps "/clipboard" = summarizeClipboard caps := rfl
    have hsne : s ≠ "" := by
      intro h0
      rw [h0] at hs
      exact hs jsTrim_empty
    have hcond : ¬(s = "" ∨ jsTrim s = "") := by
      push_neg
      exact ⟨hsne, hs⟩
    have hsum : summarizeClipboard caps =
        ({ isCommand := true,
           response := some "📋 **Summarizing clipboard content...**",
           shouldContinueToLLM := true,
           clipboardContent := some s },
         [CapCall.clipboardRead]) := by
      simp only [summarizeClipboard, hclip]
      rw [if_neg hcond]
    have hcr : (processInput caps "/clipboard").1 =
        { isCommand := true,
          response := some "📋 **Summarizing clipboard content...**",
          shouldContinueToLLM := true,
          clipboardContent := some s } := by
      rw [hpi, hsum]
    have htr2 : (processInput caps "/clipboard").2 =
        [CapCall.clipboardRead] := by
      rw [hpi, hsum]
    constructor
    · rw [run_continue_case caps "/clipboard" ctx
        "📋 **Summarizing clipboard content...**" s t hcr hsne hchat]
    · rw [run_continue_case caps "/clipboard" ctx
        "📋 **Summarizing clipboard content...**" s t hcr hsne hchat, htr2]
      rfl

/-- Witness for claim C3: the whitespace-only clipboard and the non-empty
clipboard, each at a concrete environment. -/
theorem claim3_clipboard_witness :
    ((runCommandOrChat capsEmptyClip "/clipboard" ctx0).1 =
        Except.ok "❌ Clipboard is empty or contains no text" ∧
      containsStr "❌ Clipboard is empty or contains no text" "empty" ∧
      chatCalls (runCommandOrChat capsEmptyClip "/clipboard" ctx0).2 = []) ∧
    ((runCommandOrChat caps0 "/clipboard" ctx0).1 =
        Except.ok ("📋 **Summarizing clipboard content...**" ++ "\n\n" ++
          "the reply") ∧
      chatCalls (runCommandOrChat caps0 "/clipboard" ctx0).2 =
        [CapCall.chatCall ctx0.system
          [{ role := LLMRole.user,
             content := "Please provide a concise summary of this clipboard content:\n\n" ++ "note" }]]) :=
  ⟨claim3_clipboard.1 capsEmptyClip ctx0 "   " rfl (by decide),
   claim3_clipboard.2 caps0 ctx0 "note" "the reply" rfl (by decide) rfl⟩

/-- Claim C6: `/open` with no arguments returns an error containing "URL"
without invoking the URL-open capability; with arguments, the arguments
joined with spaces get `https://` prepended exactly when the joined text
starts with neither `http://` nor `https://` (so `/open example.com`
normalizes to `https://example.com`), the capability is invoked exactly
once with the normalized URL, a success returns a confirmation containing
that URL, and a capability failure returns an error containing the
capability's message. -/
theorem claim6_open :
    (∀ caps ctx,
      (runCommandOrChat caps "/open" ctx).1 =
        Except.ok "❌ Please provide a URL. Example: /open https://google.com" ∧
      containsStr "❌ Please provide a URL. Example: /open https://google.com"
        "URL" ∧
      (runCommandOrChat caps "/open" ctx).2 = []) ∧
    (∀ u, (strStartsWith u "http://" = true ∨
        strStartsWith u "https://" = true) →
      normalizeUrl u = u) ∧
    (∀ u, strStartsWith u "http://" = false →
      strStartsWith u "https://" = false →
      normalizeUrl u = "https://" ++ u) ∧
    (∀ caps args, args ≠ [] →
      (openWebsite caps args).2 =
        [CapCall.openUrl (normalizeUrl (joinSpace args))] ∧
      (caps.openResult = Except.ok () →
        (openWebsite caps args).1 =
          { isCommand := true,
            response := some ("✅ Opened: " ++ normalizeUrl (joinSpace args)) }) ∧
      (∀ e, caps.openResult = Except.error e →
        (openWebsite caps args).1 =
          { isCommand := true,
            error := some ("Failed to open URL: " ++ e) })) ∧
    (∀ caps ctx,
      (runCommandOrChat caps "/open example.com" ctx).2 =
        [CapCall.openUrl "https://example.com"]) := by
  refine ⟨?_, ?_, ?_, ?_, ?_⟩
  · intro caps ctx
    have hcmd : (processInput caps "/open").1.isCommand = true := rfl
    have herr : (processInput caps "/open").1.error =
        some "Please provide a URL. Example: /open https://google.com" := rfl
    refine ⟨?_, ⟨"❌ Please provide a ", ". Example: /open https://google.com",
      by decide⟩, ?_⟩
    · rw [run_error_case caps "/open" ctx _ hcmd herr (by decide)]
      rfl
    · rw [run_error_case caps "/open" ctx _ hcmd herr (by decide)]
      rfl
  · intro u hu
    cases hu with
    | inl h1 => simp [normalizeUrl, h1]
    | inr h2 => simp [normalizeUrl, h2]
  · intro u h1 h2
    simp [normalizeUrl, h1, h2]
  · intro caps args hne
    cases args with
    | nil => exact absurd rfl hne
    | cons a l =>
      refine ⟨?_, ?_, ?_⟩
      · cases ho : caps.openResult with
        | ok u => simp only [openWebsite, ho]
        | error e => simp only [openWebsite, ho]
      · intro ho
        simp only [openWebsite, ho]
      · intro e ho
        simp only [openWebsite, ho]
  · intro caps ctx
    obtain ⟨cf, cb, op⟩ := caps
    cases op with
    | ok u => cases u; rfl
    | error e => rfl

/-- Witness for claim C6 at concrete URLs and environments. -/
theorem claim6_open_witness :
    normalizeUrl "https://x" = "https://x" ∧
    normalizeUrl "example.com" = "https://" ++ "example.com" ∧
    (openWebsite caps0 ["example.com"]).2 =
      [CapCall.openUrl (normalizeUrl (joinSpace ["example.com"]))] ∧
    (openWebsite caps0 ["example.com"]).1 =
      { isCommand := true,
        response := some ("✅ Opened: " ++
          normalizeUrl (joinSpace ["example.com"])) } ∧
    (openWebsite capsOpenFail ["example.com"]).1 =
      { isCommand := true, error := some ("Failed to open URL: " ++ "boom") } :=
  ⟨claim6_open.2.1 "https://x" (Or.inr (by decide)),
   claim6_open.2.2.1 "example.com" (by decide) (by decide),
   (claim6_open.2.2.2.1 caps0 ["example.com"] (by decide)).1,
   (claim6_open.2.2.2.1 caps0 ["example.com"] (by decide)).2.1 rfl,
   (claim6_open.2.2.2.1 capsOpenFail ["example.com"] (by decide)).2.2 "boom" rfl⟩

end Clippy

